import Mathlib

/-!
# FedMCP CLI: configuration lookup and command dispatch

A shallow embedding of the two Go source files of the FedMCP command-line tool:

* `pkg/config/config.go`: the `Config` and `Workspace` records, `Load` and
  `Config.GetWorkspace`;
* `cmd/fedmcp/main.go`: the five cobra subcommands (`create`, `sign`, `verify`,
  `push`, `config`), their argument validators and `Run` bodies, and `main`.

Go strings are represented by `String` (so only strings of valid UTF-8), Go `error`
values by `GoError`, a Go `(value, error)` result by a pair whose second component is
`none` for a nil error.

Library code the sources call is not part of the repository.  The `%q` verb of `fmt`,
the `viper` package, `os`, `path/filepath` and the usage and help texts cobra renders
enter the model as explicit parameters.  The two cobra argument validators the commands
name, `ExactArgs` and `MaximumNArgs`, and the order in which cobra treats a flag error,
tests the help flag, validates the arguments, calls `Run` and reports an error are
written out after the cobra library.  The commands are modelled from the point where
cobra has found the subcommand: the input is the subcommand and what the parsing of its
flags gave (an error, or the value of the help flag and the positional arguments).
-/

namespace FedMCP

/-! ## Go values -/

/-- Go `error` values, by dynamic type, each carrying the text its `Error()` method
returns.  `errorString` is what `fmt.Errorf` and `errors.New` build,
`ConfigFileNotFoundError` is viper's error type of that name, `other` any error of
another dynamic type. -/
inductive GoError where
  | errorString (msg : String)
  | ConfigFileNotFoundError (msg : String)
  | other (msg : String)
deriving DecidableEq, Repr

/-- The method `Error()`: the text of an error. -/
def GoError.Error : GoError → String
  | .errorString msg => msg
  | .ConfigFileNotFoundError msg => msg
  | .other msg => msg

/-- Go map with string keys.  `none` is the nil map; `some kvs` is an allocated map whose
binding for a key is the first pair of `kvs` with that key. -/
abbrev GoMap (V : Type) := Option (List (String × V))

/-- The keys of a map; a nil map has none. -/
def GoMap.keys {V : Type} : GoMap V → List String
  | none => []
  | some kvs => kvs.map Prod.fst

/-- The value bound to a key, if any. -/
def GoMap.find {V : Type} : GoMap V → String → Option V
  | none, _ => none
  | some kvs, k => kvs.lookup k

/-- The comma-ok index expression `v, ok := m[k]`: the bound value and `true`,
or the zero value and `false` when `k` is not a key (also for a nil map). -/
def GoMap.index {V : Type} (zero : V) (m : GoMap V) (k : String) : V × Bool :=
  match m.find k with
  | some v => (v, true)
  | none => (zero, false)

/-! ## Package `config` -/

namespace config

/-- Workspace configuration (`type Workspace struct`). -/
structure Workspace where
  Name : String
  Server : String
  KeyFile : String
  KMSKeyID : String
deriving DecidableEq, Repr

/-- The zero value of `Workspace`. -/
def Workspace.zero : Workspace := ⟨"", "", "", ""⟩

/-- The CLI configuration (`type Config struct`). -/
structure Config where
  DefaultServer : String
  DefaultWorkspace : String
  Workspaces : GoMap Workspace
  KeysDirectory : String
deriving DecidableEq, Repr

/-- The zero value of `Config` (`var config Config`). -/
def Config.zero : Config := ⟨"", "", none, ""⟩

/-- `func (c *Config) GetWorkspace(name string) (*Workspace, error)`.

`quote` is the `%q` verb of `fmt` on a string (`strconv.Quote`).  The result is the
pair (pointer, error): `none` in the first place is the nil pointer, `some ws`
a pointer to a copy of the workspace; `none` in the second place is the nil
error. -/
def Config.GetWorkspace (quote : String → String) (c : Config) (name : String) :
    Option Workspace × Option GoError :=
  let name := if name = "" then c.DefaultWorkspace else name
  let (ws, ok) := GoMap.index Workspace.zero c.Workspaces name
  if !ok then
    (none, some (GoError.errorString ("workspace " ++ quote name ++ " not found")))
  else
    (some ws, none)

/-- The name `GetWorkspace` looks up: the argument, or the default workspace when
the argument is empty. -/
def Config.resolvedName (c : Config) (name : String) : String :=
  if name = "" then c.DefaultWorkspace else name

/-- `strconv.Quote` on strings made of printable ASCII characters other than the double
quote and the backslash: such a string is wrapped in double quotes unchanged.  Used to
evaluate the model on concrete inputs. -/
def quotePlain (s : String) : String := "\"" ++ s ++ "\""

/-- A workspace names exactly one key source: a key file or a KMS key, not both, not
neither. -/
def Workspace.exactlyOneKeySource (ws : Workspace) : Prop :=
  (ws.KeyFile ≠ "" ∧ ws.KMSKeyID = "") ∨ (ws.KeyFile = "" ∧ ws.KMSKeyID ≠ "")

instance (ws : Workspace) : Decidable ws.exactlyOneKeySource := by
  unfold Workspace.exactlyOneKeySource; infer_instance

/-- A configuration with one workspace, `dev`, that names no key source at all. -/
def sampleNoKey : Config :=
  ⟨"https://fedmcp.agency.gov", "dev", some [("dev", ⟨"dev", "https://dev.fedmcp.gov", "", ""⟩)], ""⟩

/-- A configuration with two workspaces, one signing with a key file and one with a KMS
key; `prod` is the default. -/
def sampleTwo : Config :=
  ⟨"https://fedmcp.agency.gov", "prod",
    some [("dev", ⟨"dev", "https://dev.fedmcp.gov", "/keys/dev.key", ""⟩),
          ("prod", ⟨"prod", "https://prod.fedmcp.gov", "", "arn:aws:kms:us-gov-west-1:123:key/abc"⟩)],
    "/keys"⟩

/-- The part of the `viper` package `Load` calls, over an abstract type `σ` of states of
the global viper instance.  The library is not part of the repository: every property
below holds for each implementation of this interface.  `ReadInConfig` returns the new
state and its error; `Unmarshal` decodes into the `Config` it is handed and returns the
decoded value and its error. -/
structure Viper (σ : Type) where
  SetConfigFile : String → σ → σ
  AddConfigPath : String → σ → σ
  SetConfigName : String → σ → σ
  SetConfigType : String → σ → σ
  SetEnvPrefix : String → σ → σ
  AutomaticEnv : σ → σ
  SetDefault : String → String → σ → σ
  ReadInConfig : σ → σ × Option GoError
  Unmarshal : σ → Config → Config × Option GoError

/-- The part of `os` and `path/filepath` that `Load` calls: the result of
`os.UserHomeDir()`, the environment read by `os.Getenv`, and `filepath.Join`. -/
structure OS where
  UserHomeDir : String × Option GoError
  Getenv : String → String
  Join : List String → String

/-- What `Load` leaves behind: the returned pointer (`none` is nil), the returned error
(`none` is nil) and the state of the global viper instance. -/
structure LoadResult (σ : Type) where
  config : Option Config
  err : Option GoError
  viper : σ

/-- The type assertion `_, ok := err.(viper.ConfigFileNotFoundError)`. -/
def isConfigFileNotFoundError : GoError → Bool
  | .ConfigFileNotFoundError _ => true
  | _ => false

/-- The settings `Load` makes between choosing the config source and reading it
(`SetEnvPrefix`, `AutomaticEnv` and the two `SetDefault` calls). -/
def Load.settings {σ : Type} (vp : Viper σ) (os : OS) (v : σ) : σ :=
  let v := vp.SetEnvPrefix "FEDMCP" v
  let v := vp.AutomaticEnv v
  let v := vp.SetDefault "keys_directory" (os.Join [os.Getenv "HOME", ".fedmcp", "keys"]) v
  vp.SetDefault "default_server" "https://fedmcp.agency.gov" v

/-- The `else` branch of `Load` once the home directory `home` is known: search
`<home>/.fedmcp` for a file `config` of type `yaml`. -/
def Load.homeSource {σ : Type} (vp : Viper σ) (os : OS) (home : String) (v : σ) : σ :=
  let v := vp.AddConfigPath (os.Join [home, ".fedmcp"]) v
  let v := vp.SetConfigName "config" v
  vp.SetConfigType "yaml" v

/-- `func Load(cfgFile string) (*Config, error)`, run from the viper state `v`. -/
def Load {σ : Type} (vp : Viper σ) (os : OS) (cfgFile : String) (v : σ) : LoadResult σ :=
  let source : σ × Option GoError :=
    if cfgFile ≠ "" then
      (vp.SetConfigFile cfgFile v, none)
    else
      match os.UserHomeDir with
      | (_, some err) => (v, some err)
      | (home, none) => (Load.homeSource vp os home v, none)
  match source with
  | (v, some err) => ⟨none, some err, v⟩
  | (v, none) =>
    let v := Load.settings vp os v
    let (v, rerr) := vp.ReadInConfig v
    let fatal : Option GoError :=
      match rerr with
      | some err => if !isConfigFileNotFoundError err then some err else none
      | none => none
    match fatal with
    | some err => ⟨none, some err, v⟩
    | none =>
      match vp.Unmarshal v Config.zero with
      | (_, some err) => ⟨none, some err, v⟩
      | (config, none) => ⟨some config, none, v⟩

/-- The viper state in which `Load` calls `ReadInConfig`, when it gets that far: the
config source chosen from `cfgFile` (with the home directory `os.UserHomeDir` reports),
then the settings. -/
def Load.configured {σ : Type} (vp : Viper σ) (os : OS) (cfgFile : String) (v : σ) : σ :=
  Load.settings vp os
    (if cfgFile ≠ "" then vp.SetConfigFile cfgFile v else Load.homeSource vp os os.UserHomeDir.1 v)

/-- What `ReadInConfig` returns when `Load` calls it: the new viper state and the error. -/
def Load.readResult {σ : Type} (vp : Viper σ) (os : OS) (cfgFile : String) (v : σ) :
    σ × Option GoError :=
  vp.ReadInConfig (Load.configured vp os cfgFile v)

/-- What `Unmarshal` returns when `Load` calls it, on the state `ReadInConfig` left and the
zero `Config`: the decoded value and the error. -/
def Load.unmarshalResult {σ : Type} (vp : Viper σ) (os : OS) (cfgFile : String) (v : σ) :
    Config × Option GoError :=
  vp.Unmarshal (Load.readResult vp os cfgFile v).1 Config.zero

/-- A viper instance on a machine without any configuration file, used to evaluate `Load`
on concrete inputs.  The state is the list of settings made so far.  Reading an explicitly
named file fails with an error of the operating system, searching the config paths fails
with `ConfigFileNotFoundError`, and `Unmarshal` fills in the two defaults. -/
def sampleViper : Viper (List (String × String)) where
  SetConfigFile := fun f s => s ++ [("config_file", f)]
  AddConfigPath := fun p s => s ++ [("config_path", p)]
  SetConfigName := fun n s => s ++ [("config_name", n)]
  SetConfigType := fun t s => s ++ [("config_type", t)]
  SetEnvPrefix := fun p s => s ++ [("env_tag", p)]
  AutomaticEnv := fun s => s ++ [("automatic_env", "true")]
  SetDefault := fun k d s => s ++ [(k, d)]
  ReadInConfig := fun s =>
    match s.lookup "config_file" with
    | some f => (s, some (.other ("open " ++ f ++ ": no such file or directory")))
    | none => (s, some (.ConfigFileNotFoundError "Config File \"config\" Not Found"))
  Unmarshal := fun s c =>
    (⟨(s.lookup "default_server").getD c.DefaultServer, c.DefaultWorkspace, c.Workspaces,
      (s.lookup "keys_directory").getD c.KeysDirectory⟩, none)

/-- An operating system whose user has the home directory `/home/user`. -/
def sampleOS : OS where
  UserHomeDir := ("/home/user", none)
  Getenv := fun k => if k = "HOME" then "/home/user" else ""
  Join := fun parts => "/".intercalate parts

end config

/-! ## Package `main` -/

namespace fedmcp

/-- What the process writes: a write to standard output or to standard error. -/
inductive Effect where
  | stdout (s : String)
  | stderr (s : String)
deriving DecidableEq, Repr

/-- The five subcommands registered on `rootCmd`. -/
inductive Command where
  | createCmd
  | signCmd
  | verifyCmd
  | pushCmd
  | configCmd
deriving DecidableEq, Repr

/-- The `%d` verb of `fmt` on a non-negative `int`. -/
def fmtD (n : Nat) : String := toString n

/-- `cobra.ExactArgs(n)`, after the cobra library: an error
`accepts <n> arg(s), received <len(args)>` unless there are exactly `n` positional
arguments. -/
def ExactArgs (n : Nat) (args : List String) : Option GoError :=
  if args.length ≠ n then
    some (.errorString ("accepts " ++ fmtD n ++ " arg(s), received " ++ fmtD args.length))
  else
    none

/-- `cobra.MaximumNArgs(n)`, after the cobra library: an error
`accepts at most <n> arg(s), received <len(args)>` when there are more than `n` positional
arguments. -/
def MaximumNArgs (n : Nat) (args : List String) : Option GoError :=
  if args.length > n then
    some (.errorString ("accepts at most " ++ fmtD n ++ " arg(s), received " ++ fmtD args.length))
  else
    none

/-- The `Args` field of each command; `none` where the field is not set (`configCmd`). -/
def Command.Args : Command → Option (List String → Option GoError)
  | .createCmd => some (ExactArgs 1)
  | .signCmd => some (ExactArgs 1)
  | .verifyCmd => some (MaximumNArgs 1)
  | .pushCmd => some (ExactArgs 1)
  | .configCmd => none

/-- The result of a `Run` body: it returns having performed a list of effects, or it
panics (the index expression `args[0]` on an empty slice). -/
inductive RunResult where
  | returned (effects : List Effect)
  | panicked
deriving DecidableEq, Repr

/-- The `Run` field of each command, on the positional arguments cobra hands it.  The
index expression `args[0]` panics on an empty slice. -/
def Command.Run : Command → List String → RunResult
  | .createCmd, args =>
    match args[0]? with
    | some a => .returned [.stdout ("Creating " ++ a ++ " artifact...\n")]
    | none => .panicked
  | .signCmd, args =>
    match args[0]? with
    | some a => .returned [.stdout ("Signing artifact: " ++ a ++ "\n")]
    | none => .panicked
  | .verifyCmd, args =>
    if args.length > 0 then
      match args[0]? with
      | some a => .returned [.stdout ("Verifying artifact: " ++ a ++ "\n")]
      | none => .panicked
    else
      .returned []
  | .pushCmd, args =>
    match args[0]? with
    | some a => .returned [.stdout ("Pushing artifact: " ++ a ++ "\n")]
    | none => .panicked
  | .configCmd, _ => .returned [.stdout "Configuration management\n"]

/-- `func initConfig()`: the body is empty. -/
def initConfig : List Effect := []

/-- Cobra's `ValidateArgs`: the `Args` field applied to the positional arguments; a
command without an `Args` field and without subcommands takes any arguments. -/
def Command.ValidateArgs (c : Command) (args : List String) : Option GoError :=
  match c.Args with
  | none => none
  | some validate => validate args

/-- How a run of the program ends: the effects in order and the exit code. -/
structure Process where
  effects : List Effect
  exitCode : Nat
deriving DecidableEq, Repr

/-- The result of `rootCmd.Execute()`: the effects performed and the returned error
(`none` is nil), or a panic raised by a `Run` body after some effects. -/
inductive ExecuteResult where
  | returned (effects : List Effect) (err : Option GoError)
  | panicked (effects : List Effect)
deriving DecidableEq, Repr

/-- What cobra's `ParseFlags` makes of the arguments that follow the subcommand name on
the command line.  `failed err`: the flags do not parse (an unknown flag such as
`--bogus`, a flag without its value, a value of the wrong type).  `parsed help args`: they
parse; `help` is the value of the help flag cobra adds to every command (`true` when `-h`
or `--help` is given) and `args` are the positional arguments left over.  So
`fedmcp create --help` is `parsed true []` and `fedmcp sign artifact.json` is
`parsed false ["artifact.json"]`. -/
inductive Flags where
  | failed (err : GoError)
  | parsed (help : Bool) (args : List String)
deriving DecidableEq, Repr

/-- What cobra itself writes when a command returns an error: the line `Error: <text>`
and the usage text of the command, both on standard error. -/
def reportError (usage : Command → String) (c : Command) (err : GoError) : List Effect :=
  [.stderr ("Error: " ++ err.Error ++ "\n"), .stderr (usage c ++ "\n")]

/-- `rootCmd.Execute()` from the point where cobra has found the subcommand `c`, in the
order of cobra's `execute`:

* a flag error is returned at once, before anything else is looked at;
* if the help flag is set, the help text goes to standard output and the error returned
  is nil; the arguments are not validated and `Run` is not called;
* otherwise the `OnInitialize` hook `initConfig` runs, the positional arguments are
  validated, and `Run` is called only if they pass.

Every error returned is first reported by cobra itself (`reportError`).  `usage` and
`helpText` are the usage and help texts, which cobra renders from its templates. -/
def Execute (usage helpText : Command → String) (c : Command) (flags : Flags) :
    ExecuteResult :=
  match flags with
  | .failed err => .returned (reportError usage c err) (some err)
  | .parsed true _ => .returned [.stdout (helpText c)] none
  | .parsed false args =>
    let pre := initConfig
    match c.ValidateArgs args with
    | some err => .returned (pre ++ reportError usage c err) (some err)
    | none =>
      match c.Run args with
      | .returned effects => .returned (pre ++ effects) none
      | .panicked => .panicked pre

/-- `func main()`: a non-nil error from `Execute` is written to standard error as
`Error: <text>` and the process exits with code 1; otherwise `main` returns and
the exit code is 0.  An uncaught panic ends a Go process with exit code 2. -/
def main (usage helpText : Command → String) (c : Command) (flags : Flags) : Process :=
  match Execute usage helpText c flags with
  | .returned effects (some err) =>
    ⟨effects ++ [.stderr ("Error: " ++ err.Error ++ "\n")], 1⟩
  | .returned effects none => ⟨effects, 0⟩
  | .panicked effects => ⟨effects, 2⟩

/-- A stand-in for cobra's usage text, used to evaluate the model on concrete inputs. -/
def usageLine : Command → String
  | .createCmd => "Usage:\n  fedmcp create [type] [flags]"
  | .signCmd => "Usage:\n  fedmcp sign [artifact-file] [flags]"
  | .verifyCmd => "Usage:\n  fedmcp verify [artifact-file] [flags]"
  | .pushCmd => "Usage:\n  fedmcp push [artifact-file] [flags]"
  | .configCmd => "Usage:\n  fedmcp config [flags]"

/-- A stand-in for cobra's help text, used to evaluate the model on concrete inputs. -/
def helpLine : Command → String
  | .createCmd => "Create a new FedMCP artifact of the specified type.\n"
  | .signCmd => "Sign a FedMCP artifact using ECDSA P-256.\n"
  | .verifyCmd => "Verify the cryptographic signature of a FedMCP artifact.\n"
  | .pushCmd => "Push a signed artifact to a FedMCP server.\n"
  | .configCmd => "Manage FedMCP CLI configuration.\n"

end fedmcp

end FedMCP

/-! ## Theorems: `GetWorkspace` -/

namespace FedMCP

namespace config

/-- A key is bound in a map exactly when it is one of the map's keys. -/
theorem find_isSome_iff_mem_keys {V : Type} (m : GoMap V) (k : String) :
    (m.find k).isSome = true ↔ k ∈ m.keys := by
  cases m with
  | none => simp [GoMap.find, GoMap.keys]
  | some kvs =>
    simp only [GoMap.find, GoMap.keys]
    induction kvs with
    | nil => simp
    | cons kv rest ih =>
      obtain ⟨k0, v0⟩ := kv
      by_cases hk : k = k0
      · subst hk
        simp [List.lookup]
      · have hb : (k == k0) = false := by simpa using hk
        simp [List.lookup, hb, hk, ih]

/-- A key is unbound in a map exactly when it is none of the map's keys. -/
theorem find_eq_none_iff_not_mem_keys {V : Type} (m : GoMap V) (k : String) :
    m.find k = none ↔ k ∉ m.keys := by
  rw [← find_isSome_iff_mem_keys]
  cases m.find k <;> simp

/-- What `GetWorkspace` returns, by the binding of the resolved name. -/
theorem GetWorkspace_eq (quote : String → String) (c : Config) (name : String) :
    c.GetWorkspace quote name =
      match c.Workspaces.find (c.resolvedName name) with
      | some ws => (some ws, none)
      | none =>
        (none, some (GoError.errorString
          ("workspace " ++ quote (c.resolvedName name) ++ " not found"))) := by
  unfold Config.GetWorkspace Config.resolvedName GoMap.index
  dsimp only
  generalize (if name = "" then c.DefaultWorkspace else name) = resolved
  cases c.Workspaces.find resolved <;> rfl

/-- C1: for a non-empty name that is a key of `c.Workspaces`, `GetWorkspace` returns a nil
error and a workspace whose four fields are those of the workspace stored under that
name. -/
theorem GetWorkspace_of_key (quote : String → String) (c : Config) (n : String)
    (hn : n ≠ "") (hk : n ∈ c.Workspaces.keys) :
    ∃ stored ws, c.Workspaces.find n = some stored ∧
      GoMap.index Workspace.zero c.Workspaces n = (stored, true) ∧
      c.GetWorkspace quote n = (some ws, none) ∧
      ws.Name = stored.Name ∧ ws.Server = stored.Server ∧
      ws.KeyFile = stored.KeyFile ∧ ws.KMSKeyID = stored.KMSKeyID := by
  have hres : c.resolvedName n = n := by simp [Config.resolvedName, hn]
  have hsome := (find_isSome_iff_mem_keys c.Workspaces n).mpr hk
  obtain ⟨stored, hst⟩ := Option.isSome_iff_exists.mp hsome
  refine ⟨stored, stored, hst, ?_, ?_, rfl, rfl, rfl, rfl⟩
  · simp [GoMap.index, hst]
  · rw [GetWorkspace_eq, hres, hst]

/-- C1 at a concrete input: the workspace `dev` of `sampleTwo`. -/
theorem GetWorkspace_of_key_witness :
    ∃ stored ws, sampleTwo.Workspaces.find "dev" = some stored ∧
      GoMap.index Workspace.zero sampleTwo.Workspaces "dev" = (stored, true) ∧
      sampleTwo.GetWorkspace quotePlain "dev" = (some ws, none) ∧
      ws.Name = stored.Name ∧ ws.Server = stored.Server ∧
      ws.KeyFile = stored.KeyFile ∧ ws.KMSKeyID = stored.KMSKeyID :=
  GetWorkspace_of_key quotePlain sampleTwo "dev" (by decide) (by decide)

/-- C2: `GetWorkspace` returns an error if and only if the resolved name is not a key of
`c.Workspaces`; then the returned pointer is nil and the error text is
`workspace <quoted resolved name> not found`.  A nil map has no keys, so every lookup in
it is such an error. -/
theorem GetWorkspace_error_iff (quote : String → String) (c : Config) (n : String) :
    ((c.GetWorkspace quote n).2 ≠ none ↔ c.resolvedName n ∉ c.Workspaces.keys) ∧
    (c.resolvedName n ∉ c.Workspaces.keys →
      ∃ err, c.GetWorkspace quote n = (none, some err) ∧
        err.Error = "workspace " ++ quote (c.resolvedName n) ++ " not found") ∧
    (c.Workspaces = none → c.resolvedName n ∉ c.Workspaces.keys) := by
  refine ⟨?_, ?_, ?_⟩
  · rw [GetWorkspace_eq, ← find_eq_none_iff_not_mem_keys]
    cases c.Workspaces.find (c.resolvedName n) <;> simp
  · intro h
    rw [← find_eq_none_iff_not_mem_keys] at h
    rw [GetWorkspace_eq, h]
    exact ⟨_, rfl, rfl⟩
  · intro h
    simp [h, GoMap.keys]

/-- C2 at concrete inputs: an unknown name in `sampleTwo`, and the empty name in the zero
configuration, whose map is nil. -/
theorem GetWorkspace_error_iff_witness :
    sampleTwo.GetWorkspace quotePlain "staging"
        = (none, some (GoError.errorString "workspace \"staging\" not found")) ∧
      Config.zero.GetWorkspace quotePlain ""
        = (none, some (GoError.errorString "workspace \"\" not found")) ∧
      ((sampleTwo.GetWorkspace quotePlain "staging").2 ≠ none ↔
        sampleTwo.resolvedName "staging" ∉ sampleTwo.Workspaces.keys) :=
  ⟨by decide, by decide, (GetWorkspace_error_iff quotePlain sampleTwo "staging").1⟩

/-- C3: the empty name selects the default workspace: `GetWorkspace("")` returns what
`GetWorkspace(c.DefaultWorkspace)` returns, workspace or error. -/
theorem GetWorkspace_empty_name (quote : String → String) (c : Config) :
    c.GetWorkspace quote "" = c.GetWorkspace quote c.DefaultWorkspace := by
  rw [GetWorkspace_eq, GetWorkspace_eq]
  have h : c.resolvedName "" = c.resolvedName c.DefaultWorkspace := by
    unfold Config.resolvedName
    by_cases hd : c.DefaultWorkspace = "" <;> simp [hd]
  rw [h]

/-- C7, as stated, fails: `GetWorkspace` succeeds on the workspace `dev` of `sampleNoKey`,
which has neither a key file nor a KMS key identifier. -/
theorem GetWorkspace_no_key_source :
    sampleNoKey.GetWorkspace quotePlain "dev"
        = (some ⟨"dev", "https://dev.fedmcp.gov", "", ""⟩, none) ∧
      ¬ Workspace.exactlyOneKeySource ⟨"dev", "https://dev.fedmcp.gov", "", ""⟩ := by
  decide

/-- C7, amended: `GetWorkspace` validates nothing, it hands back the stored workspace.  If
every workspace bound in `c.Workspaces` has exactly one of `KeyFile` and `KMSKeyID`
non-empty, then so has every workspace `GetWorkspace` returns. -/
theorem GetWorkspace_preserves_key_source (quote : String → String) (c : Config)
    (n : String) (ws : Workspace)
    (hall : ∀ k w, c.Workspaces.find k = some w → w.exactlyOneKeySource)
    (h : c.GetWorkspace quote n = (some ws, none)) : ws.exactlyOneKeySource := by
  rw [GetWorkspace_eq] at h
  cases hf : c.Workspaces.find (c.resolvedName n) with
  | none => simp [hf] at h
  | some w =>
    simp only [hf, Prod.mk.injEq, Option.some.injEq, and_true] at h
    exact h ▸ hall _ _ hf

/-- Every workspace bound in `sampleTwo` names exactly one key source. -/
theorem sampleTwo_key_sources (k : String) (w : Workspace)
    (h : sampleTwo.Workspaces.find k = some w) : w.exactlyOneKeySource := by
  simp only [sampleTwo, GoMap.find, List.lookup] at h
  by_cases h1 : k = "dev"
  · subst h1
    simp at h
    subst h
    decide
  · by_cases h2 : k = "prod"
    · subst h2
      simp at h
      subst h
      decide
    · have b1 : (k == "dev") = false := by simpa using h1
      have b2 : (k == "prod") = false := by simpa using h2
      simp [b1, b2] at h

/-- C7 amended, at a concrete input: the default workspace of `sampleTwo`. -/
theorem GetWorkspace_preserves_key_source_witness :
    sampleTwo.GetWorkspace quotePlain ""
        = (some ⟨"prod", "https://prod.fedmcp.gov", "",
            "arn:aws:kms:us-gov-west-1:123:key/abc"⟩, none) ∧
      Workspace.exactlyOneKeySource
        ⟨"prod", "https://prod.fedmcp.gov", "", "arn:aws:kms:us-gov-west-1:123:key/abc"⟩ :=
  ⟨by decide,
    GetWorkspace_preserves_key_source quotePlain sampleTwo "" _ sampleTwo_key_sources
      (by decide)⟩

end config

end FedMCP

/-! ## Theorems: `Load` -/

namespace FedMCP

namespace config

/-- `Load` when the home directory is needed and cannot be determined: the error of
`os.UserHomeDir` is returned with a nil pointer, before viper is touched. -/
theorem Load_of_no_home {σ : Type} (vp : Viper σ) (os : OS) (v : σ) (err : GoError)
    (h : os.UserHomeDir.2 = some err) : Load vp os "" v = ⟨none, some err, v⟩ := by
  rcases hh : os.UserHomeDir with ⟨home, e⟩
  simp only [hh] at h
  subst h
  simp [Load, hh]

/-- `Load` once the config source is chosen: the outcome is decided by `ReadInConfig` and
`Unmarshal`, called on the configured viper state. -/
theorem Load_of_source {σ : Type} (vp : Viper σ) (os : OS) (cfgFile : String) (v : σ)
    (h : ¬ (cfgFile = "" ∧ os.UserHomeDir.2 ≠ none)) :
    Load vp os cfgFile v =
      match (match (Load.readResult vp os cfgFile v).2 with
          | some err => if !isConfigFileNotFoundError err then some err else none
          | none => none) with
      | some err => ⟨none, some err, (Load.readResult vp os cfgFile v).1⟩
      | none =>
        match Load.unmarshalResult vp os cfgFile v with
        | (_, some uerr) => ⟨none, some uerr, (Load.readResult vp os cfgFile v).1⟩
        | (config, none) => ⟨some config, none, (Load.readResult vp os cfgFile v).1⟩ := by
  unfold Load.unmarshalResult Load.readResult Load.configured
  by_cases hc : cfgFile = ""
  · subst hc
    rcases hh : os.UserHomeDir with ⟨home, e⟩
    have he : e = none := by
      by_contra hne
      exact h ⟨rfl, by simpa [hh] using hne⟩
    subst he
    simp [Load, hh]
  · simp [Load, hc]

/-- C9: `Load` returns an error exactly when (a) `cfgFile` is empty and the home directory
cannot be determined, (b) `ReadInConfig` fails with an error that is not a
`ConfigFileNotFoundError`, or (c) `Unmarshal` fails.  Whenever it returns an error the
returned pointer is nil.  When the home directory poses no problem, `ReadInConfig` fails
with `ConfigFileNotFoundError` and `Unmarshal` succeeds, `Load` returns the decoded
`Config` and a nil error. -/
theorem Load_error_iff {σ : Type} (vp : Viper σ) (os : OS) (cfgFile : String) (v : σ) :
    ((Load vp os cfgFile v).err ≠ none ↔
      (cfgFile = "" ∧ os.UserHomeDir.2 ≠ none) ∨
      (∃ e, (Load.readResult vp os cfgFile v).2 = some e ∧
        isConfigFileNotFoundError e = false) ∨
      (Load.unmarshalResult vp os cfgFile v).2 ≠ none) ∧
    ((Load vp os cfgFile v).err ≠ none → (Load vp os cfgFile v).config = none) ∧
    (¬ (cfgFile = "" ∧ os.UserHomeDir.2 ≠ none) →
      (∃ e, (Load.readResult vp os cfgFile v).2 = some e ∧
        isConfigFileNotFoundError e = true) →
      (Load.unmarshalResult vp os cfgFile v).2 = none →
      (Load vp os cfgFile v).config = some (Load.unmarshalResult vp os cfgFile v).1 ∧
        (Load vp os cfgFile v).err = none) := by
  by_cases ha : cfgFile = "" ∧ os.UserHomeDir.2 ≠ none
  · obtain ⟨hc, hh⟩ := ha
    subst hc
    obtain ⟨err, herr⟩ := Option.ne_none_iff_exists'.mp hh
    rw [Load_of_no_home vp os v err herr]
    refine ⟨?_, ?_, ?_⟩
    · simp [herr]
    · simp
    · intro hn
      exact absurd ⟨rfl, hh⟩ hn
  · rw [Load_of_source vp os cfgFile v ha]
    rcases hu : Load.unmarshalResult vp os cfgFile v with ⟨cfg, uerr⟩
    cases hr : (Load.readResult vp os cfgFile v).2 with
    | none =>
      cases uerr with
      | none => simp [ha]
      | some ue => simp [ha]
    | some e =>
      cases hnf : isConfigFileNotFoundError e with
      | false => simp [ha, hnf]
      | true =>
        cases uerr with
        | none => simp [ha, hnf]
        | some ue => simp [ha, hnf]

/-- C9 at concrete inputs, on a machine without configuration files: `Load("")` finds no
config file and returns the defaults with a nil error; `Load("missing.yaml")` returns
the error of the failed read and a nil pointer. -/
theorem Load_error_iff_witness :
    ((Load sampleViper sampleOS "" []).config
        = some ⟨"https://fedmcp.agency.gov", "", none, "/home/user/.fedmcp/keys"⟩ ∧
      (Load sampleViper sampleOS "" []).err = none) ∧
    ((Load sampleViper sampleOS "missing.yaml" []).err
        = some (.other "open missing.yaml: no such file or directory") ∧
      (Load sampleViper sampleOS "missing.yaml" []).config = none) :=
  ⟨(Load_error_iff sampleViper sampleOS "" []).2.2 (by decide) ⟨_, rfl, rfl⟩ rfl,
    by decide,
    (Load_error_iff sampleViper sampleOS "missing.yaml" []).2.1 (by decide)⟩

end config

end FedMCP

/-! ## Theorems: the subcommands and `main` -/

namespace FedMCP

namespace fedmcp

/-- A list of length one is a singleton. -/
theorem eq_singleton_of_length_one {α : Type} (l : List α) (h : l.length = 1) :
    ∃ a, l = [a] := by
  match l, h with
  | [a], _ => exact ⟨a, rfl⟩

/-- The arguments `ExactArgs 1` lets through are the lists of length one, and
`MaximumNArgs 1` those of length at most one. -/
theorem ValidateArgs_eq_none_iff (c : Command) (args : List String) :
    c.ValidateArgs args = none ↔
      match c with
      | .createCmd => args.length = 1
      | .signCmd => args.length = 1
      | .verifyCmd => args.length ≤ 1
      | .pushCmd => args.length = 1
      | .configCmd => True := by
  cases c <;> simp [Command.ValidateArgs, Command.Args, ExactArgs, MaximumNArgs]

/-- C6, as stated, fails: `verify` accepts an empty argument list, and its `Run` body
then writes nothing at all. -/
theorem verify_no_args_prints_nothing :
    Command.verifyCmd.ValidateArgs [] = none ∧
      Command.verifyCmd.Run [] = RunResult.returned [] := by
  decide

/-- C6, amended: on every argument list its validator accepts, the `Run` body of a
subcommand returns without a panic having performed at most one effect, a single write
to standard output of a text that ends in a newline.  `verify` without arguments performs
no effect; every other accepted call performs exactly that one write. -/
theorem Run_effects (c : Command) (args : List String) (h : c.ValidateArgs args = none) :
    (c = .verifyCmd ∧ args = [] → c.Run args = .returned []) ∧
    (¬ (c = .verifyCmd ∧ args = []) →
      ∃ text, c.Run args = .returned [.stdout (text ++ "\n")]) := by
  rw [ValidateArgs_eq_none_iff] at h
  cases c
  case createCmd =>
    obtain ⟨a, rfl⟩ := eq_singleton_of_length_one args h
    exact ⟨by simp, fun _ => ⟨"Creating " ++ a ++ " artifact...", by simp [Command.Run, String.append_assoc]⟩⟩
  case signCmd =>
    obtain ⟨a, rfl⟩ := eq_singleton_of_length_one args h
    exact ⟨by simp, fun _ => ⟨"Signing artifact: " ++ a, by simp [Command.Run, String.append_assoc]⟩⟩
  case pushCmd =>
    obtain ⟨a, rfl⟩ := eq_singleton_of_length_one args h
    exact ⟨by simp, fun _ => ⟨"Pushing artifact: " ++ a, by simp [Command.Run, String.append_assoc]⟩⟩
  case configCmd =>
    exact ⟨by simp, fun _ => ⟨"Configuration management", by simp [Command.Run]⟩⟩
  case verifyCmd =>
    match args, h with
    | [], _ => exact ⟨fun _ => by simp [Command.Run], fun hn => absurd ⟨rfl, rfl⟩ hn⟩
    | [a], _ =>
      exact ⟨by simp, fun _ => ⟨"Verifying artifact: " ++ a, by simp [Command.Run, String.append_assoc]⟩⟩

/-- C6 amended, at a concrete input: `fedmcp create ssp-fragment`. -/
theorem Run_effects_witness :
    ∃ text, Command.createCmd.Run ["ssp-fragment"] = .returned [.stdout (text ++ "\n")] :=
  (Run_effects .createCmd ["ssp-fragment"] (by decide)).2 (by decide)

/-- The program on a rejected argument list, flags parsed and no help asked for: `Run` is
not called, cobra writes the error and the usage text, `main` writes the error once more
and exits with code 1. -/
theorem main_of_rejected (usage helpText : Command → String) (c : Command)
    (args : List String) (err : GoError) (h : c.ValidateArgs args = some err) :
    main usage helpText c (.parsed false args) =
      ⟨[.stderr ("Error: " ++ err.Error ++ "\n"), .stderr (usage c ++ "\n"),
        .stderr ("Error: " ++ err.Error ++ "\n")], 1⟩ := by
  simp [main, Execute, reportError, h, initConfig]

/-- The program on an accepted argument list on which `Run` returns, flags parsed and no
help asked for: the effects are those of `Run` and the exit code is 0. -/
theorem main_of_accepted (usage helpText : Command → String) (c : Command)
    (args : List String) (effects : List Effect) (h : c.ValidateArgs args = none)
    (hr : c.Run args = .returned effects) :
    main usage helpText c (.parsed false args) = ⟨effects, 0⟩ := by
  simp [main, Execute, h, hr, initConfig]

/-- C8, as stated, fails: the argument count alone does not decide the exit code.
`fedmcp create --help` has no positional argument, which `ExactArgs(1)` rejects, yet
nothing is written to standard error and the exit code is 0.  `fedmcp sign artifact.json
--help` has the one argument `sign` accepts, yet its `Run` body is not executed: the help
text is written instead of the placeholder line.  `fedmcp sign artifact.json --bogus`
exits with code 1 on the flag error. -/
theorem main_help_ignores_arg_count :
    (Command.createCmd.ValidateArgs [] ≠ none ∧
      main usageLine helpLine .createCmd (.parsed true [])
        = ⟨[.stdout (helpLine .createCmd)], 0⟩) ∧
    (Command.signCmd.ValidateArgs ["artifact.json"] = none ∧
      Command.signCmd.Run ["artifact.json"]
        = .returned [.stdout "Signing artifact: artifact.json\n"] ∧
      main usageLine helpLine .signCmd (.parsed true ["artifact.json"])
        = ⟨[.stdout (helpLine .signCmd)], 0⟩) ∧
    (main usageLine helpLine .signCmd (.failed (.errorString "unknown flag: --bogus"))).exitCode
      = 1 := by
  decide

/-- C8, amended: the argument count decides the exit code once the flags of the command
have parsed and help is not asked for.  Then `create`, `sign` and `push` with a number of
positional arguments other than one, and `verify` with more than one, are rejected before
`Run` is called: nothing is written to standard output, the last thing written is the line
`Error: <error text>` on standard error, and the exit code is 1; with an accepted count
(exactly one; at most one for `verify`) the `Run` body is executed (the effects of the
program are exactly those of `Run`) and the exit code is 0.  With the help flag set,
whatever the arguments, the help text is written to standard output, neither the
validator nor `Run` is called and the exit code is 0.  On a flag error, `Run` is not called,
the error is written to standard error after `Error: ` and the exit code is 1. -/
theorem main_exit_code (usage helpText : Command → String) (c : Command)
    (args : List String) (ferr : GoError) :
    (((c = .createCmd ∨ c = .signCmd ∨ c = .pushCmd) ∧ args.length ≠ 1) ∨
        (c = .verifyCmd ∧ args.length > 1) →
      ∃ err, c.ValidateArgs args = some err ∧
        (∀ e ∈ (main usage helpText c (.parsed false args)).effects,
          ∃ s, e = Effect.stderr s) ∧
        (main usage helpText c (.parsed false args)).effects.getLast?
          = some (.stderr ("Error: " ++ err.Error ++ "\n")) ∧
        (main usage helpText c (.parsed false args)).exitCode = 1) ∧
    (((c = .createCmd ∨ c = .signCmd ∨ c = .pushCmd) ∧ args.length = 1) ∨
        (c = .verifyCmd ∧ args.length ≤ 1) →
      ∃ effects, c.Run args = .returned effects ∧
        main usage helpText c (.parsed false args) = ⟨effects, 0⟩) ∧
    main usage helpText c (.parsed true args) = ⟨[.stdout (helpText c)], 0⟩ ∧
    main usage helpText c (.failed ferr) =
      ⟨[.stderr ("Error: " ++ ferr.Error ++ "\n"), .stderr (usage c ++ "\n"),
        .stderr ("Error: " ++ ferr.Error ++ "\n")], 1⟩ := by
  refine ⟨?_, ?_, ?_, ?_⟩
  · intro h
    have hrej : ∃ err, c.ValidateArgs args = some err := by
      rcases h with ⟨hc | hc | hc, hl⟩ | ⟨hc, hl⟩ <;> subst hc
      · exact ⟨_, by simp [Command.ValidateArgs, Command.Args, ExactArgs, hl]; rfl⟩
      · exact ⟨_, by simp [Command.ValidateArgs, Command.Args, ExactArgs, hl]; rfl⟩
      · exact ⟨_, by simp [Command.ValidateArgs, Command.Args, ExactArgs, hl]; rfl⟩
      · exact ⟨_, by simp [Command.ValidateArgs, Command.Args, MaximumNArgs, hl]; rfl⟩
    obtain ⟨err, herr⟩ := hrej
    refine ⟨err, herr, ?_, ?_, ?_⟩
    · rw [main_of_rejected usage helpText c args err herr]
      intro e he
      simp only [List.mem_cons, List.mem_singleton, List.not_mem_nil, or_false] at he
      rcases he with rfl | rfl | rfl <;> exact ⟨_, rfl⟩
    · rw [main_of_rejected usage helpText c args err herr]
      rfl
    · rw [main_of_rejected usage helpText c args err herr]
  · intro h
    have hacc : c.ValidateArgs args = none := by
      rw [ValidateArgs_eq_none_iff]
      rcases h with ⟨hc | hc | hc, hl⟩ | ⟨hc, hl⟩ <;> subst hc <;> simpa using hl
    have hrun : ∃ effects, c.Run args = .returned effects := by
      rcases h with ⟨hc | hc | hc, hl⟩ | ⟨hc, hl⟩ <;> subst hc
      · obtain ⟨a, rfl⟩ := eq_singleton_of_length_one args hl
        exact ⟨_, by simp [Command.Run]; rfl⟩
      · obtain ⟨a, rfl⟩ := eq_singleton_of_length_one args hl
        exact ⟨_, by simp [Command.Run]; rfl⟩
      · obtain ⟨a, rfl⟩ := eq_singleton_of_length_one args hl
        exact ⟨_, by simp [Command.Run]; rfl⟩
      · match args, hl with
        | [], _ => exact ⟨_, by simp [Command.Run]; rfl⟩
        | [a], _ => exact ⟨_, by simp [Command.Run]; rfl⟩
    obtain ⟨effects, hr⟩ := hrun
    exact ⟨effects, hr, main_of_accepted usage helpText c args effects hacc hr⟩
  · simp [main, Execute]
  · simp [main, Execute, reportError]

/-- C8 amended, at concrete inputs.  `fedmcp create` without arguments is rejected: only
standard error is written and the exit code is 1.  `fedmcp sign artifact.json` is
accepted: the program performs the effects of `Run`, the one placeholder line, and the
exit code is 0. -/
theorem main_exit_code_witness :
    (∃ err, Command.createCmd.ValidateArgs [] = some err ∧
        (∀ e ∈ (main usageLine helpLine .createCmd (.parsed false [])).effects,
          ∃ s, e = Effect.stderr s) ∧
        (main usageLine helpLine .createCmd (.parsed false [])).effects.getLast?
          = some (.stderr ("Error: " ++ err.Error ++ "\n")) ∧
        (main usageLine helpLine .createCmd (.parsed false [])).exitCode = 1) ∧
      main usageLine helpLine .createCmd (.parsed false []) =
        ⟨[.stderr "Error: accepts 1 arg(s), received 0\n",
          .stderr "Usage:\n  fedmcp create [type] [flags]\n",
          .stderr "Error: accepts 1 arg(s), received 0\n"], 1⟩ ∧
      (∃ effects, Command.signCmd.Run ["artifact.json"] = .returned effects ∧
        main usageLine helpLine .signCmd (.parsed false ["artifact.json"]) = ⟨effects, 0⟩) ∧
      main usageLine helpLine .signCmd (.parsed false ["artifact.json"]) =
        ⟨[.stdout "Signing artifact: artifact.json\n"], 0⟩ :=
  ⟨(main_exit_code usageLine helpLine .createCmd [] (.errorString "")).1 (by decide),
    by decide,
    (main_exit_code usageLine helpLine .signCmd ["artifact.json"] (.errorString "")).2.1
      (by decide),
    by decide⟩

/-- C4, the code at the failing input: whatever the file `file` holds, `fedmcp verify file`
writes the placeholder line and exits with code 0; the file is never read and no check is
made. -/
theorem verify_exits_zero (usage helpText : Command → String) (file : String) :
    main usage helpText .verifyCmd (.parsed false [file])
      = ⟨[.stdout ("Verifying artifact: " ++ file ++ "\n")], 0⟩ := by
  simp [main, Execute, Command.ValidateArgs, Command.Args, MaximumNArgs, Command.Run,
    initConfig]

/-- C5, the code at the failing input: `fedmcp sign file` writes the placeholder line and
exits with code 0, so no signature is produced and no file is written; `fedmcp verify file`
run after it exits with code 0 as well, having written its own placeholder line and
checked nothing. -/
theorem sign_produces_nothing (usage helpText : Command → String) (file : String) :
    main usage helpText .signCmd (.parsed false [file])
        = ⟨[.stdout ("Signing artifact: " ++ file ++ "\n")], 0⟩ ∧
      main usage helpText .verifyCmd (.parsed false [file])
        = ⟨[.stdout ("Verifying artifact: " ++ file ++ "\n")], 0⟩ := by
  constructor
  · simp [main, Execute, Command.ValidateArgs, Command.Args, ExactArgs, Command.Run,
      initConfig]
  · simp [main, Execute, Command.ValidateArgs, Command.Args, MaximumNArgs, Command.Run,
      initConfig]

end fedmcp

end FedMCP
